import Mathlib

/-!
Shallow embedding of `rmpv`'s serde serialization bridge
(`src/rmpv/src/ext/se.rs`): the conversion of any serde-serializable
value into the dynamically typed MessagePack `Value` tree, together
with the composite builders (`SerializeVec`, `SerializeTupleVariant`,
`DefaultSerializeMap`, `SerializeStructVariant`).

Machine integers are modelled as `Int` (for `i8..i64`) and `Nat`
(for `u8..u64`, bytes) with explicit range hypotheses where a claim
needs them; fallible conversion returns `Except Error Value`; the
process-aborting `panic` in `DefaultSerializeMap::serialize_value`
is modelled by a dedicated `Panic` result type.
-/

namespace Rmpv

/-- Modelled from the spec: the private integer representation of the
`Value` tree, a 64-bit magnitude tagged Positive (`PosInt`, holding a
`u64`) or Negative (`NegInt`, holding a negative `i64`).  The type
itself lives outside `src/` (only `se.rs` is given); the spec states
the normalization invariant: a value `≥ 0` is always stored with the
Positive tag, a value `< 0` always with the Negative tag. -/
inductive IntPriv where
  | PosInt (n : Nat)
  | NegInt (n : Int)
deriving DecidableEq, Repr

/-- The `Integer` wrapper: `struct Integer { n: IntPriv }`. -/
structure Integer where
  n : IntPriv
deriving DecidableEq, Repr

/-- Tag inspection: `true` exactly when the integer carries the
Positive (`PosInt`) tag. -/
def Integer.isPositiveTag : Integer → Bool
  | ⟨.PosInt _⟩ => true
  | ⟨.NegInt _⟩ => false

/-- The stored 64-bit quantity, read back as a mathematical integer:
a `PosInt` stores a `u64`, a `NegInt` stores a (negative) `i64`. -/
def Integer.magnitude : Integer → Int
  | ⟨.PosInt n⟩ => (n : Int)
  | ⟨.NegInt n⟩ => n

/-- Modelled from the spec: the internals of `Utf8String` (defined
outside `src/`): either valid UTF-8 text or, for an input byte
sequence that is not valid UTF-8, the raw bytes kept verbatim (the
code accesses the invalid case's bytes as `v.0`; the accompanying
`Utf8Error` is never read by the bridge and is omitted). -/
inductive Utf8StringRepr where
  | valid (s : String)
  | invalid (bytes : List Nat)
deriving DecidableEq, Repr

/-- The `Utf8String` wrapper with its `s` field, as matched by
`v.s` in the `Serialize for Value` impl. -/
structure Utf8String where
  s : Utf8StringRepr
deriving DecidableEq, Repr

/-- Modelled from the spec: the `Value` tree (defined outside `src/`) —
a tagged union with exactly the spec's variants.  Bytes are `Nat`s
(`u8`); float payloads are carried as opaque bit patterns (`Nat`),
never interpreted by the bridge. -/
inductive Value where
  | Nil : Value
  | Boolean (b : Bool) : Value
  | Integer (i : Integer) : Value
  | F32 (bits : Nat) : Value
  | F64 (bits : Nat) : Value
  | String (v : Utf8String) : Value
  | Binary (bytes : List Nat) : Value
  | Array (items : List Value) : Value
  | Map (entries : List (Value × Value)) : Value
  | Ext (ty : Int) (buf : List Nat) : Value

/-- Modelled from the spec: `From<i64> for Value` (outside `src/`);
per the spec's normalization invariant, a value `≥ 0` is stored with
the Positive/unsigned tag, a value `< 0` with the Negative/signed
tag. -/
def Value.fromI64 (v : Int) : Value :=
  if 0 ≤ v then .Integer ⟨.PosInt v.toNat⟩ else .Integer ⟨.NegInt v⟩

/-- Modelled from the spec: `From<u64> for Value` (outside `src/`);
an unsigned value is stored with the Positive tag. -/
def Value.fromU64 (n : Nat) : Value :=
  .Integer ⟨.PosInt n⟩

/-- Modelled from the spec: `From<u32> for Value`, used for enum
variant indices (`Value::from(idx)` with `idx: u32`): widened to
`u64`. -/
def Value.fromU32 (n : Nat) : Value :=
  Value.fromU64 n

/-- The subsystem's error kind: a `Syntax` error wrapping a free-text
message (`Error::Syntax(String)`), produced only by adapting a failure
signaled by the driving value's own serialization logic. -/
inductive Error where
  | SyntaxErr (msg : String)
deriving DecidableEq, Repr

/-- The serde data model, i.e. every shape a driving value's
`Serialize` impl can hand to the bridge: one constructor per
`Serializer` callback of `se.rs` (compound callbacks carry the
elements the driver would feed to the returned builder, in call
order).  `err` models a driver whose own serialization logic fails
with the given message (`ser::Error::custom`). -/
inductive SValue where
  | bool (b : Bool)
  | i8 (v : Int)
  | i16 (v : Int)
  | i32 (v : Int)
  | i64 (v : Int)
  | u8 (v : Nat)
  | u16 (v : Nat)
  | u32 (v : Nat)
  | u64 (v : Nat)
  | f32 (bits : Nat)
  | f64 (bits : Nat)
  | char (c : Char)
  | str (s : String)
  | bytes (b : List Nat)
  | unit
  | unitStruct (name : String)
  | unitVariant (name : String) (idx : Nat) (variant : String)
  | newtypeStruct (name : String) (v : SValue)
  | newtypeVariant (name : String) (idx : Nat) (variant : String) (v : SValue)
  | none
  | some (v : SValue)
  | seq (elems : List SValue)
  | tuple (elems : List SValue)
  | tupleStruct (name : String) (elems : List SValue)
  | tupleVariant (name : String) (idx : Nat) (variant : String) (elems : List SValue)
  | map (entries : List (SValue × SValue))
  | struct (name : String) (fields : List (String × SValue))
  | structVariant (name : String) (idx : Nat) (variant : String) (fields : List (String × SValue))
  | err (msg : String)

/-- `Serializer::serialize_i64`: `Ok(Value::from(val))`.  The narrower
signed widths widen (`val as i64`, exact on in-range values) and call
this. -/
def Serializer.serialize_i64 (v : Int) : Except Error Value :=
  .ok (Value.fromI64 v)

/-- `Serializer::serialize_u64`: `Ok(Value::from(val))`.  The narrower
unsigned widths widen and call this. -/
def Serializer.serialize_u64 (n : Nat) : Except Error Value :=
  .ok (Value.fromU64 n)

/-- `Serializer::serialize_str`: `Ok(Value::String(val.into()))` — a
`&str` is always valid UTF-8, so the conversion yields the valid
case. -/
def Serializer.serialize_str (s : String) : Except Error Value :=
  .ok (.String ⟨.valid s⟩)

/-- `Serializer::serialize_bytes`: `Ok(Value::Binary(val.into()))`. -/
def Serializer.serialize_bytes (b : List Nat) : Except Error Value :=
  .ok (.Binary b)

/-- `Serializer::serialize_unit`: `Ok(Value::Nil)`. -/
def Serializer.serialize_unit : Except Error Value :=
  .ok Value.Nil

/-- The `DefaultSerializeMap` builder state: the accumulated entries
and the pending key awaiting its value. -/
structure DefaultSerializeMap where
  map : List (Value × Value)
  next_key : Option Value

mutual

/-- `to_value` / `Serializer`'s primitive dispatch: converts one serde
data-model value into a `Value`, recursively converting nested
elements exactly as the builders of `se.rs` do. -/
def to_value : SValue → Except Error Value
  | .bool b => .ok (.Boolean b)
  | .i8 v => Serializer.serialize_i64 v
  | .i16 v => Serializer.serialize_i64 v
  | .i32 v => Serializer.serialize_i64 v
  | .i64 v => Serializer.serialize_i64 v
  | .u8 v => Serializer.serialize_u64 v
  | .u16 v => Serializer.serialize_u64 v
  | .u32 v => Serializer.serialize_u64 v
  | .u64 v => Serializer.serialize_u64 v
  | .f32 bits => .ok (.F32 bits)
  | .f64 bits => .ok (.F64 bits)
  | .char c => Serializer.serialize_str (String.singleton c)
  | .str s => Serializer.serialize_str s
  | .bytes b => Serializer.serialize_bytes b
  | .unit => Serializer.serialize_unit
  | .unitStruct _ => .ok (.Array [])
  | .unitVariant _ idx _ => .ok (.Array [Value.fromU32 idx, .Array []])
  | .newtypeStruct _ v =>
    match to_value v with
    | .error e => .error e
    | .ok w => .ok (.Array [w])
  | .newtypeVariant _ idx _ v =>
    match to_value v with
    | .error e => .error e
    | .ok w => .ok (.Array [Value.fromU32 idx, .Array [w]])
  | .none => Serializer.serialize_unit
  | .some v => to_value v
  | .seq elems =>
    match convertElements elems with
    | .error e => .error e
    | .ok vs => .ok (.Array vs)
  | .tuple elems =>
    match convertElements elems with
    | .error e => .error e
    | .ok vs => .ok (.Array vs)
  | .tupleStruct _ elems =>
    match convertElements elems with
    | .error e => .error e
    | .ok vs => .ok (.Array vs)
  | .tupleVariant _ idx _ elems =>
    match convertElements elems with
    | .error e => .error e
    | .ok vs => .ok (.Array [Value.fromU32 idx, .Array vs])
  | .map entries => convertEntries entries ⟨[], Option.none⟩
  | .struct _ fields =>
    match convertFields fields with
    | .error e => .error e
    | .ok vs => .ok (.Array vs)
  | .structVariant _ idx _ fields =>
    match convertFields fields with
    | .error e => .error e
    | .ok vs => .ok (.Array [Value.fromU32 idx, .Array vs])
  | .err msg => .error (Error.SyntaxErr msg)

/-- `SerializeVec`: one `serialize_element`/`serialize_field` push per
element (`self.vec.push(to_value(&value)?)`), finalized by `end` into
the accumulated order; the first failure short-circuits. -/
def convertElements : List SValue → Except Error (List Value)
  | [] => .ok []
  | x :: xs =>
    match to_value x with
    | .error e => .error e
    | .ok v =>
      match convertElements xs with
      | .error e => .error e
      | .ok vs => .ok (v :: vs)

/-- `SerializeStruct for SerializeVec`: `serialize_field(_key, value)`
ignores the field name and pushes only the converted value. -/
def convertFields : List (String × SValue) → Except Error (List Value)
  | [] => .ok []
  | (_, x) :: xs =>
    match to_value x with
    | .error e => .error e
    | .ok v =>
      match convertFields xs with
      | .error e => .error e
      | .ok vs => .ok (v :: vs)

/-- A map-shaped driver feeding `DefaultSerializeMap` through
`serialize_entry` pairs: each entry converts the key
(`serialize_key`), then the value (`serialize_value`, whose pending
key is the one just set, so the take always succeeds on this path),
appending the pair; `end` wraps the accumulated entries. -/
def convertEntries : List (SValue × SValue) → DefaultSerializeMap → Except Error Value
  | [], m => .ok (.Map m.map)
  | (k, v) :: rest, m =>
    match to_value k with
    | .error e => .error e
    | .ok kv =>
      match to_value v with
      | .error e => .error e
      | .ok vv => convertEntries rest ⟨m.map ++ [(kv, vv)], Option.none⟩

end

mutual

/-- `impl Serialize for Value`, driven by this crate's own
`Serializer` (i.e. `to_value` applied to an existing `Value`):
re-emits each variant through the serializer's callbacks.  In the
`Ext` arm the payload `buf: Vec<u8>` is fed to `serialize_element`
directly, and serde's `Vec<u8>` impl serializes it as a sequence of
`u8` elements (only the `Binary` and invalid-UTF-8 `String` arms wrap
their bytes in `serde_bytes::Bytes`), so the payload re-emerges as an
`Array` of positive `Integer`s. -/
def serializeValue : Value → Except Error Value
  | .Nil => Serializer.serialize_unit
  | .Boolean b => .ok (.Boolean b)
  | .Integer ⟨.PosInt n⟩ => Serializer.serialize_u64 n
  | .Integer ⟨.NegInt n⟩ => Serializer.serialize_i64 n
  | .F32 bits => .ok (.F32 bits)
  | .F64 bits => .ok (.F64 bits)
  | .String ⟨.valid s⟩ => Serializer.serialize_str s
  | .String ⟨.invalid bs⟩ => Serializer.serialize_bytes bs
  | .Binary bs => Serializer.serialize_bytes bs
  | .Array items =>
    match serializeValueList items with
    | .error e => .error e
    | .ok vs => .ok (.Array vs)
  | .Map entries =>
    match serializeValuePairs entries with
    | .error e => .error e
    | .ok ps => .ok (.Map ps)
  | .Ext ty buf => .ok (.Array [Value.fromI64 ty, .Array (buf.map Value.fromU64)])

/-- The `Array` arm's loop: `serialize_element(item)` pushes
`to_value(item)` — i.e. `item` re-serialized by this same impl — for
each item in order. -/
def serializeValueList : List Value → Except Error (List Value)
  | [] => .ok []
  | x :: xs =>
    match serializeValue x with
    | .error e => .error e
    | .ok v =>
      match serializeValueList xs with
      | .error e => .error e
      | .ok vs => .ok (v :: vs)

/-- The `Map` arm's loop: `serialize_entry(key, val)` converts the key
and then the value, appending the pair. -/
def serializeValuePairs : List (Value × Value) → Except Error (List (Value × Value))
  | [] => .ok []
  | (k, v) :: rest =>
    match serializeValue k with
    | .error e => .error e
    | .ok kv =>
      match serializeValue v with
      | .error e => .error e
      | .ok vv =>
        match serializeValuePairs rest with
        | .error e => .error e
        | .ok ps => .ok ((kv, vv) :: ps)

end

/-- Result of a builder call that may abort the process: the `expect`
in `DefaultSerializeMap::serialize_value` panics instead of returning
a `Result`. -/
inductive Panic (α : Type) where
  | panicked (msg : String)
  | returned (a : α)
deriving DecidableEq, Repr

/-- `DefaultSerializeMap::serialize_key`: converts the key and stores
it as the pending key (replacing any pending one). -/
def DefaultSerializeMap.serialize_key (m : DefaultSerializeMap) (k : SValue) :
    Except Error DefaultSerializeMap :=
  match to_value k with
  | .error e => .error e
  | .ok kv => .ok ⟨m.map, Option.some kv⟩

/-- `DefaultSerializeMap::serialize_value`: takes the pending key —
panicking, as a contract violation, when there is none — then converts
the value and appends the pair. -/
def DefaultSerializeMap.serialize_value (m : DefaultSerializeMap) (v : SValue) :
    Panic (Except Error DefaultSerializeMap) :=
  match m.next_key with
  | Option.none => .panicked "`serialize_value` called before `serialize_key`"
  | Option.some key =>
    .returned
      (match to_value v with
       | .error e => .error e
       | .ok vv => .ok ⟨m.map ++ [(key, vv)], Option.none⟩)

/-- `DefaultSerializeMap::end`: wraps the accumulated entries as a
`Map` (any still-pending key is simply dropped with the builder). -/
def DefaultSerializeMap.finishMap (m : DefaultSerializeMap) : Except Error Value :=
  .ok (.Map m.map)

/-- One call made by a driver against the `DefaultSerializeMap`
builder. -/
inductive MapCall where
  | key (k : SValue)
  | val (v : SValue)

/-- Runs a sequence of builder calls against a
`DefaultSerializeMap` state, propagating the first panic or
conversion error. -/
def runCalls : DefaultSerializeMap → List MapCall → Panic (Except Error DefaultSerializeMap)
  | m, [] => .returned (.ok m)
  | m, .key k :: rest =>
    match m.serialize_key k with
    | .error e => .returned (.error e)
    | .ok m2 => runCalls m2 rest
  | m, .val v :: rest =>
    match m.serialize_value v with
    | .panicked msg => .panicked msg
    | .returned (.error e) => .returned (.error e)
    | .returned (.ok m2) => runCalls m2 rest

/-- A full Map Builder session: `serialize_map` creates the empty
builder, the calls run in order, and `end` finalizes. -/
def runMapBuilder (calls : List MapCall) : Panic (Except Error Value) :=
  match runCalls ⟨[], Option.none⟩ calls with
  | .panicked msg => .panicked msg
  | .returned (.error e) => .returned (.error e)
  | .returned (.ok m) => .returned (m.finishMap)

/-- The alternating submission pattern `key k₁, val v₁, key k₂,
val v₂, …` used by every well-behaved map driver. -/
def interleave : List SValue → List SValue → List MapCall
  | [], _ => []
  | _ :: _, [] => []
  | k :: ks, v :: vs => .key k :: .val v :: interleave ks vs

/-- Is this byte a UTF-8 continuation byte (`0x80..=0xBF`)? -/
def utf8Cont (b : Nat) : Bool :=
  0x80 ≤ b && b ≤ 0xBF

/-- Modelled from the spec: validity of a byte sequence as UTF-8, the
condition (checked outside this subsystem, by the standard library's
UTF-8 decoder) under which a byte sequence avoids the `String`
variant's invalid-bytes fallback.  Follows the UTF-8 well-formedness
table: ASCII; 2-byte `C2..DF`; 3-byte `E0 A0..BF`, `E1..EC`,
`ED 80..9F` (no surrogates), `EE..EF`; 4-byte `F0 90..BF`, `F1..F3`,
`F4 80..8F` (≤ U+10FFFF); each followed by continuation bytes. -/
def isValidUtf8 : List Nat → Bool
  | [] => true
  | b :: rest =>
    if b < 0x80 then isValidUtf8 rest
    else if 0xC2 ≤ b && b ≤ 0xDF then
      match rest with
      | c1 :: r => utf8Cont c1 && isValidUtf8 r
      | [] => false
    else if b == 0xE0 then
      match rest with
      | c1 :: c2 :: r => (0xA0 ≤ c1 && c1 ≤ 0xBF) && utf8Cont c2 && isValidUtf8 r
      | _ => false
    else if (0xE1 ≤ b && b ≤ 0xEC) || (0xEE ≤ b && b ≤ 0xEF) then
      match rest with
      | c1 :: c2 :: r => utf8Cont c1 && utf8Cont c2 && isValidUtf8 r
      | _ => false
    else if b == 0xED then
      match rest with
      | c1 :: c2 :: r => (0x80 ≤ c1 && c1 ≤ 0x9F) && utf8Cont c2 && isValidUtf8 r
      | _ => false
    else if b == 0xF0 then
      match rest with
      | c1 :: c2 :: c3 :: r =>
        (0x90 ≤ c1 && c1 ≤ 0xBF) && utf8Cont c2 && utf8Cont c3 && isValidUtf8 r
      | _ => false
    else if 0xF1 ≤ b && b ≤ 0xF3 then
      match rest with
      | c1 :: c2 :: c3 :: r => utf8Cont c1 && utf8Cont c2 && utf8Cont c3 && isValidUtf8 r
      | _ => false
    else if b == 0xF4 then
      match rest with
      | c1 :: c2 :: c3 :: r =>
        (0x80 ≤ c1 && c1 ≤ 0x8F) && utf8Cont c2 && utf8Cont c3 && isValidUtf8 r
      | _ => false
    else false

/-- A builder call whose payload has already been converted to a
`Value` — the form in which the order/pairing behaviour of the Map
Builder is stated. -/
inductive CCall where
  | key (k : Value)
  | val (v : Value)

/-- Converts one builder call's payload with `to_value`. -/
def convCall : MapCall → Except Error CCall
  | .key k =>
    match to_value k with
    | .error e => .error e
    | .ok kv => .ok (.key kv)
  | .val v =>
    match to_value v with
    | .error e => .error e
    | .ok vv => .ok (.val vv)

/-- Converts a whole call sequence's payloads, short-circuiting on the
first failure. -/
def convCalls : List MapCall → Except Error (List CCall)
  | [] => .ok []
  | c :: cs =>
    match convCall c with
    | .error e => .error e
    | .ok cc =>
      match convCalls cs with
      | .error e => .error e
      | .ok ccs => .ok (cc :: ccs)

/-- Every value submission is preceded by a pending key; the flag says
whether a key is pending when the sequence starts. -/
def callsWellFormed : Bool → List CCall → Bool
  | _, [] => true
  | _, .key _ :: rest => callsWellFormed true rest
  | pending, .val _ :: rest => pending && callsWellFormed false rest

/-- Follows the claim's words: the pairs a call sequence produces —
one pair per value submission, pairing it with the most recently
submitted key (a later key submission replaces a pending key, whose
earlier key then never appears; a key still pending at the end is
discarded). -/
def specMapPairs : Option Value → List CCall → List (Value × Value)
  | _, [] => []
  | _, .key k :: rest => specMapPairs (Option.some k) rest
  | Option.some k, .val v :: rest => (k, v) :: specMapPairs Option.none rest
  | Option.none, .val _ :: rest => specMapPairs Option.none rest

/-- The key left pending after a call sequence. -/
def specFinalKey : Option Value → List CCall → Option Value
  | p, [] => p
  | _, .key k :: rest => specFinalKey (Option.some k) rest
  | _, .val _ :: rest => specFinalKey Option.none rest

/-- The struct path and the plain-sequence path accumulate the same
values: `SerializeStruct::serialize_field` ignores the field name and
delegates to `SerializeSeq::serialize_element`. -/
theorem convertFields_eq_convertElements (fields : List (String × SValue)) :
    convertFields fields = convertElements (fields.map Prod.snd) := by
  induction fields with
  | nil => rfl
  | cons p rest ih =>
    obtain ⟨k, x⟩ := p
    simp only [List.map_cons, convertFields, convertElements, ih]

/-- C1: for every signed or unsigned integer of any width up to 64
bits, conversion yields an `Integer` tagged Positive iff the input is
`≥ 0` and Negative iff it is `< 0`, with the stored 64-bit quantity
equal to the input; the narrower widths are widened to 64 bits and
converted identically. -/
theorem convert_integer_sign_and_magnitude (v : Int) (n : Nat)
    (hv1 : -(2 ^ 63) ≤ v) (hv2 : v < 2 ^ 63) (hn : n < 2 ^ 64) :
    (∃ i : Integer, to_value (.i64 v) = .ok (.Integer i) ∧
        (i.isPositiveTag = true ↔ 0 ≤ v) ∧ i.magnitude = v) ∧
    (∃ i : Integer, to_value (.u64 n) = .ok (.Integer i) ∧
        i.isPositiveTag = true ∧ i.magnitude = (n : Int)) ∧
    to_value (.i8 v) = to_value (.i64 v) ∧
    to_value (.i16 v) = to_value (.i64 v) ∧
    to_value (.i32 v) = to_value (.i64 v) ∧
    to_value (.u8 n) = to_value (.u64 n) ∧
    to_value (.u16 n) = to_value (.u64 n) ∧
    to_value (.u32 n) = to_value (.u64 n) := by
  refine ⟨?_, ⟨⟨.PosInt n⟩, rfl, rfl, rfl⟩, rfl, rfl, rfl, rfl, rfl, rfl⟩
  by_cases h : 0 ≤ v
  · refine ⟨⟨.PosInt v.toNat⟩, ?_, ?_, ?_⟩
    · simp [to_value, Serializer.serialize_i64, Value.fromI64, h]
    · simp [Integer.isPositiveTag, h]
    · simp [Integer.magnitude, Int.toNat_of_nonneg h]
  · refine ⟨⟨.NegInt v⟩, ?_, ?_, rfl⟩
    · simp [to_value, Serializer.serialize_i64, Value.fromI64, h]
    · simp [Integer.isPositiveTag, h]

/-- C1 witness: the characterization applied at `i64 = -5`,
`u64 = 7`. -/
theorem convert_integer_sign_and_magnitude_witness :
    (∃ i : Integer, to_value (.i64 (-5 : Int)) = .ok (.Integer i) ∧
        (i.isPositiveTag = true ↔ 0 ≤ (-5 : Int)) ∧ i.magnitude = (-5 : Int)) ∧
    (∃ i : Integer, to_value (.u64 (7 : Nat)) = .ok (.Integer i) ∧
        i.isPositiveTag = true ∧ i.magnitude = ((7 : Nat) : Int)) ∧
    to_value (.i8 (-5 : Int)) = to_value (.i64 (-5 : Int)) ∧
    to_value (.i16 (-5 : Int)) = to_value (.i64 (-5 : Int)) ∧
    to_value (.i32 (-5 : Int)) = to_value (.i64 (-5 : Int)) ∧
    to_value (.u8 (7 : Nat)) = to_value (.u64 (7 : Nat)) ∧
    to_value (.u16 (7 : Nat)) = to_value (.u64 (7 : Nat)) ∧
    to_value (.u32 (7 : Nat)) = to_value (.u64 (7 : Nat)) :=
  convert_integer_sign_and_magnitude (-5) 7 (by decide) (by decide) (by decide)

/-- C2: Option encoding is transparent — `None` converts to `Nil`,
`Some x` converts exactly as `x` does, and consequently `Some x` with
`x` converting to `Nil` is indistinguishable from `None`. -/
theorem convert_option_transparent :
    to_value SValue.none = .ok .Nil ∧
    (∀ x : SValue, to_value (.some x) = to_value x) ∧
    (∀ x : SValue, to_value x = .ok .Nil → to_value (.some x) = to_value SValue.none) :=
  ⟨rfl, fun _ => rfl, fun _ h => h⟩

/-- C2 witness: transparency instantiated at `Some ()`, whose payload
converts to `Nil`. -/
theorem convert_option_transparent_witness :
    to_value (.some .unit) = to_value SValue.none :=
  convert_option_transparent.2.2 .unit rfl

/-- C6: the unit value converts to `Nil` while a zero-field named
struct converts to the empty `Array`, and the two results are
distinct. -/
theorem convert_unit_vs_unit_struct (name : String) :
    to_value .unit = .ok .Nil ∧
    to_value (.unitStruct name) = .ok (.Array []) ∧
    Value.Nil ≠ Value.Array [] :=
  ⟨rfl, rfl, fun h => Value.noConfusion h⟩

/-- C6 witness: instantiated at the struct name "Unit". -/
theorem convert_unit_vs_unit_struct_witness :
    to_value .unit = .ok .Nil ∧
    to_value (.unitStruct "Unit") = .ok (.Array []) ∧
    Value.Nil ≠ Value.Array [] :=
  convert_unit_vs_unit_struct "Unit"

/-- C8: a byte sequence that is not valid UTF-8 converts identically
through the string path (the `String` variant's invalid-bytes
fallback) and through the raw-bytes path (`Binary`): both arms wrap
the bytes in `serde_bytes::Bytes` and emit `Binary`. -/
theorem string_invalid_utf8_matches_binary (bs : List Nat)
    (h : isValidUtf8 bs = false) :
    serializeValue (.String ⟨.invalid bs⟩) = serializeValue (.Binary bs) :=
  rfl

/-- C8 witness: the invalid byte sequence `[0xFF]`. -/
theorem string_invalid_utf8_matches_binary_witness :
    isValidUtf8 [0xFF] = false ∧
    serializeValue (.String ⟨.invalid [0xFF]⟩) = serializeValue (.Binary [0xFF]) :=
  ⟨by decide, string_invalid_utf8_matches_binary [0xFF] (by decide)⟩

/-- C9 counterexample: converting `Ext(5, [1,2,3])` does not yield
`Array[Integer(5, Positive), Binary([1,2,3])]` — the payload is fed to
`serialize_element` as a plain `Vec<u8>`, which serde serializes as a
sequence, not as bytes. -/
theorem ext_payload_not_binary :
    serializeValue (.Ext 5 [1, 2, 3]) ≠
      .ok (.Array [.Integer ⟨.PosInt 5⟩, .Binary [1, 2, 3]]) := by
  intro h
  simp [serializeValue, Value.fromI64, Value.fromU64] at h

/-- C9 amended: converting `Ext(5, [1,2,3])` yields
`Array[Integer(5, Positive), Array[Integer(1, Positive),
Integer(2, Positive), Integer(3, Positive)]]` — the payload bytes are
re-serialized as an `Array` of positive `Integer`s, not as
`Binary`. -/
theorem ext_converts_to_index_and_integer_array :
    serializeValue (.Ext 5 [1, 2, 3]) =
      .ok (.Array [.Integer ⟨.PosInt 5⟩,
        .Array [.Integer ⟨.PosInt 1⟩, .Integer ⟨.PosInt 2⟩,
                .Integer ⟨.PosInt 3⟩]]) :=
  rfl

/-- C4: submitting a value to the Map Builder while no key is pending
panics (a fatal contract violation); it never returns — neither as an
`Err` nor as any other `Result`. -/
theorem map_value_submission_without_pending_key_aborts
    (m : DefaultSerializeMap) (v : SValue) (h : m.next_key = Option.none) :
    m.serialize_value v =
      .panicked "`serialize_value` called before `serialize_key`" ∧
    ∀ r : Except Error DefaultSerializeMap, m.serialize_value v ≠ .returned r := by
  refine ⟨?_, ?_⟩
  · simp [DefaultSerializeMap.serialize_value, h]
  · intro r hr
    simp [DefaultSerializeMap.serialize_value, h] at hr

/-- C4 witness: the fresh builder (as created by `serialize_map`)
receiving a unit value submission. -/
theorem map_value_submission_without_pending_key_aborts_witness :
    DefaultSerializeMap.serialize_value ⟨[], Option.none⟩ .unit =
      .panicked "`serialize_value` called before `serialize_key`" ∧
    ∀ r : Except Error DefaultSerializeMap,
      DefaultSerializeMap.serialize_value ⟨[], Option.none⟩ .unit ≠ .returned r :=
  map_value_submission_without_pending_key_aborts ⟨[], Option.none⟩ .unit rfl

/-- C3: a unit variant at index `i` converts to
`Array[Integer(i, Positive), Array[]]`; a tuple variant converts to
`Array[Integer(i, Positive), Array[converted fields]]`; a struct
variant converts to the same two-element shape with only the
converted field values, in submission order, the names discarded. -/
theorem convert_enum_variants (name variant : String) (i : Nat)
    (elems : List SValue) (fields : List (String × SValue)) (vs ws : List Value)
    (he : convertElements elems = .ok vs)
    (hf : convertElements (fields.map Prod.snd) = .ok ws) :
    to_value (.unitVariant name i variant) =
      .ok (.Array [.Integer ⟨.PosInt i⟩, .Array []]) ∧
    to_value (.tupleVariant name i variant elems) =
      .ok (.Array [.Integer ⟨.PosInt i⟩, .Array vs]) ∧
    to_value (.structVariant name i variant fields) =
      .ok (.Array [.Integer ⟨.PosInt i⟩, .Array ws]) := by
  refine ⟨rfl, ?_, ?_⟩
  · simp [to_value, he, Value.fromU32, Value.fromU64]
  · simp [to_value, convertFields_eq_convertElements, hf, Value.fromU32, Value.fromU64]

/-- C3 witness: variant index 2 with tuple fields `(true, 3u8)` and a
struct field `a = "x"`. -/
theorem convert_enum_variants_witness :
    to_value (.unitVariant "E" 2 "V") =
      .ok (.Array [.Integer ⟨.PosInt 2⟩, .Array []]) ∧
    to_value (.tupleVariant "E" 2 "V" [.bool true, .u8 3]) =
      .ok (.Array [.Integer ⟨.PosInt 2⟩,
        .Array [.Boolean true, .Integer ⟨.PosInt 3⟩]]) ∧
    to_value (.structVariant "E" 2 "V" [("a", .str "x")]) =
      .ok (.Array [.Integer ⟨.PosInt 2⟩, .Array [.String ⟨.valid "x"⟩]]) :=
  convert_enum_variants "E" "V" 2 [.bool true, .u8 3] [("a", .str "x")]
    [.Boolean true, .Integer ⟨.PosInt 3⟩] [.String ⟨.valid "x"⟩] rfl rfl

/-- C7: an ordinary named struct converts to the plain `Array` of its
converted field values in declaration order; the field names are
discarded, so the result does not depend on them. -/
theorem convert_struct_drops_field_names (name name2 : String)
    (fields fields2 : List (String × SValue)) (vs : List Value)
    (h : convertElements (fields.map Prod.snd) = .ok vs)
    (h2 : fields.map Prod.snd = fields2.map Prod.snd) :
    to_value (.struct name fields) = .ok (.Array vs) ∧
    to_value (.struct name fields) = to_value (.struct name2 fields2) := by
  refine ⟨?_, ?_⟩
  · simp [to_value, convertFields_eq_convertElements, h]
  · simp [to_value, convertFields_eq_convertElements, h2]

/-- C7 witness: two structs with the same field values `(1u8, false)`
under different struct and field names convert identically, to
`Array[Integer(1, Positive), Boolean(false)]`. -/
theorem convert_struct_drops_field_names_witness :
    to_value (.struct "S" [("a", .u8 1), ("b", .bool false)]) =
      .ok (.Array [.Integer ⟨.PosInt 1⟩, .Boolean false]) ∧
    to_value (.struct "S" [("a", .u8 1), ("b", .bool false)]) =
      to_value (.struct "T" [("x", .u8 1), ("y", .bool false)]) :=
  convert_struct_drops_field_names "S" "T"
    [("a", .u8 1), ("b", .bool false)] [("x", .u8 1), ("y", .bool false)]
    [.Integer ⟨.PosInt 1⟩, .Boolean false] rfl rfl

/-- Running an alternating key/value submission sequence from a state
with no pending key appends exactly the converted pairs, in
submission order. -/
theorem runCalls_interleave (ks : List SValue) (vs : List SValue)
    (kvals vvals : List Value) (acc : List (Value × Value))
    (hk : convertElements ks = .ok kvals)
    (hv : convertElements vs = .ok vvals)
    (hlen : ks.length = vs.length) :
    runCalls ⟨acc, Option.none⟩ (interleave ks vs) =
      .returned (.ok ⟨acc ++ kvals.zip vvals, Option.none⟩) := by
  induction ks generalizing vs kvals vvals acc with
  | nil =>
    simp only [convertElements] at hk
    injection hk with hk
    subst hk
    simp [interleave, runCalls]
  | cons k ks2 ih =>
    cases vs with
    | nil => simp at hlen
    | cons v vs2 =>
      cases h1 : to_value k with
      | error e => simp [convertElements, h1] at hk
      | ok kv =>
        cases h2 : convertElements ks2 with
        | error e => simp [convertElements, h1, h2] at hk
        | ok kt =>
          simp only [convertElements, h1, h2] at hk
          injection hk with hk
          subst hk
          cases h3 : to_value v with
          | error e => simp [convertElements, h3] at hv
          | ok vv =>
            cases h4 : convertElements vs2 with
            | error e => simp [convertElements, h3, h4] at hv
            | ok vt =>
              simp only [convertElements, h3, h4] at hv
              injection hv with hv
              subst hv
              simp only [List.length_cons, Nat.succ.injEq] at hlen
              simp only [interleave, runCalls, DefaultSerializeMap.serialize_key,
                DefaultSerializeMap.serialize_value, h1, h3]
              have := ih vs2 kt vt (acc ++ [(kv, vv)]) h2 h4 hlen
              simpa [List.append_assoc] using this

/-- C5: an alternating key/value submission sequence finalizes into a
`Map` holding exactly the converted pairs in submission order —
duplicates kept, nothing reordered; in particular keys `[k1, k2, k1]`
with values `[v1, v2, v3]` yield
`[(k1, v1), (k2, v2), (k1, v3)]`. -/
theorem map_builder_preserves_order_and_duplicates
    (ks vs : List SValue) (kvals vvals : List Value)
    (hk : convertElements ks = .ok kvals)
    (hv : convertElements vs = .ok vvals)
    (hlen : ks.length = vs.length) :
    runMapBuilder (interleave ks vs) =
      .returned (.ok (.Map (kvals.zip vvals))) ∧
    (∀ (k1 k2 v1 v2 v3 : SValue) (K1 K2 V1 V2 V3 : Value),
      to_value k1 = .ok K1 → to_value k2 = .ok K2 →
      to_value v1 = .ok V1 → to_value v2 = .ok V2 → to_value v3 = .ok V3 →
      runMapBuilder (interleave [k1, k2, k1] [v1, v2, v3]) =
        .returned (.ok (.Map [(K1, V1), (K2, V2), (K1, V3)]))) := by
  refine ⟨?_, ?_⟩
  · rw [runMapBuilder, runCalls_interleave ks vs kvals vvals [] hk hv hlen]
    simp [DefaultSerializeMap.finishMap]
  · intro k1 k2 v1 v2 v3 K1 K2 V1 V2 V3 hK1 hK2 hV1 hV2 hV3
    rw [runMapBuilder,
      runCalls_interleave [k1, k2, k1] [v1, v2, v3] [K1, K2, K1] [V1, V2, V3] []
        (by simp [convertElements, hK1, hK2])
        (by simp [convertElements, hV1, hV2, hV3]) rfl]
    simp [DefaultSerializeMap.finishMap, List.zip]

/-- C5 witness: keys `[1u8, "k", 1u8]` (a duplicate key) with values
`[true, false, 9u8]`. -/
theorem map_builder_preserves_order_and_duplicates_witness :
    runMapBuilder (interleave [.u8 1, .str "k", .u8 1]
        [.bool true, .bool false, .u8 9]) =
      .returned (.ok (.Map [(.Integer ⟨.PosInt 1⟩, .Boolean true),
        (.String ⟨.valid "k"⟩, .Boolean false),
        (.Integer ⟨.PosInt 1⟩, .Integer ⟨.PosInt 9⟩)])) :=
  (map_builder_preserves_order_and_duplicates
    [.u8 1, .str "k", .u8 1] [.bool true, .bool false, .u8 9]
    [.Integer ⟨.PosInt 1⟩, .String ⟨.valid "k"⟩, .Integer ⟨.PosInt 1⟩]
    [.Boolean true, .Boolean false, .Integer ⟨.PosInt 9⟩] rfl rfl rfl).1

/-- Running any well-formed call sequence appends exactly the pairs
described by `specMapPairs` and leaves `specFinalKey` pending. -/
theorem runCalls_spec (calls : List MapCall) (ccalls : List CCall)
    (m : DefaultSerializeMap) (hconv : convCalls calls = .ok ccalls)
    (hwf : callsWellFormed m.next_key.isSome ccalls = true) :
    runCalls m calls =
      .returned (.ok ⟨m.map ++ specMapPairs m.next_key ccalls,
        specFinalKey m.next_key ccalls⟩) := by
  induction calls generalizing ccalls m with
  | nil =>
    simp only [convCalls] at hconv
    injection hconv with hconv
    subst hconv
    simp [runCalls, specMapPairs, specFinalKey]
  | cons c rest ih =>
    cases c with
    | key k =>
      cases h1 : to_value k with
      | error e => simp [convCalls, convCall, h1] at hconv
      | ok kv =>
        cases h2 : convCalls rest with
        | error e => simp [convCalls, convCall, h1, h2] at hconv
        | ok ccs =>
          simp only [convCalls, convCall, h1, h2] at hconv
          injection hconv with hconv
          subst hconv
          simp only [callsWellFormed] at hwf
          simp only [runCalls, DefaultSerializeMap.serialize_key, h1]
          have := ih ccs ⟨m.map, Option.some kv⟩ h2 (by simpa using hwf)
          simpa [specMapPairs, specFinalKey] using this
    | val v =>
      cases h1 : to_value v with
      | error e => simp [convCalls, convCall, h1] at hconv
      | ok vv =>
        cases h2 : convCalls rest with
        | error e => simp [convCalls, convCall, h1, h2] at hconv
        | ok ccs =>
          simp only [convCalls, convCall, h1, h2] at hconv
          injection hconv with hconv
          subst hconv
          simp only [callsWellFormed, Bool.and_eq_true] at hwf
          obtain ⟨hp, hwf2⟩ := hwf
          cases hnk : m.next_key with
          | none => rw [hnk] at hp; simp at hp
          | some key =>
            simp only [runCalls, DefaultSerializeMap.serialize_value, hnk, h1]
            have := ih ccs ⟨m.map ++ [(key, vv)], Option.none⟩ h2 (by simpa using hwf2)
            simpa [hnk, specMapPairs, specFinalKey, List.append_assoc] using this

/-- C10: a finalized Map Builder session holds exactly one pair per
value submission, each paired with the most recently submitted key —
a key submitted while another is pending silently replaces it, and a
key still pending at finalization is discarded without error; indeed
`serialize_key` overwrites the pending key unconditionally and `end`
wraps the accumulated pairs regardless of the pending key. -/
theorem map_builder_latest_key_wins (calls : List MapCall) (ccalls : List CCall)
    (hconv : convCalls calls = .ok ccalls)
    (hwf : callsWellFormed false ccalls = true) :
    runMapBuilder calls =
      .returned (.ok (.Map (specMapPairs Option.none ccalls))) ∧
    (∀ (m : DefaultSerializeMap) (k : SValue) (kv : Value),
        to_value k = .ok kv →
        m.serialize_key k = .ok ⟨m.map, Option.some kv⟩) ∧
    (∀ m : DefaultSerializeMap, m.finishMap = .ok (.Map m.map)) := by
  refine ⟨?_, ?_, fun m => rfl⟩
  · have := runCalls_spec calls ccalls ⟨[], Option.none⟩ hconv (by simpa using hwf)
    rw [runMapBuilder, this]
    simp [DefaultSerializeMap.finishMap]
  · intro m k kv h
    simp [DefaultSerializeMap.serialize_key, h]

/-- C10 witness: the calls `key 1u8, key 2u8, val true, key 3u8` —
the first key is replaced before any value arrives, and the last key
is still pending at finalization; the result holds the single pair
`(2, true)`. -/
theorem map_builder_latest_key_wins_witness :
    runMapBuilder [.key (.u8 1), .key (.u8 2), .val (.bool true), .key (.u8 3)] =
      .returned (.ok (.Map [(.Integer ⟨.PosInt 2⟩, .Boolean true)])) :=
  (map_builder_latest_key_wins
    [.key (.u8 1), .key (.u8 2), .val (.bool true), .key (.u8 3)]
    [.key (.Integer ⟨.PosInt 1⟩), .key (.Integer ⟨.PosInt 2⟩),
     .val (.Boolean true), .key (.Integer ⟨.PosInt 3⟩)] rfl rfl).1

end Rmpv
